import Mathlib

/-!
# Verification of the change-tracker component

A shallow embedding of the fingerprint-based change tracker
(`packages/change-tracker/src/index.ts` and `types.ts`) together with
proofs about its behaviour.

Modelling conventions:

* File contents (`Buffer`) are byte lists `List Nat`; a record whose
  `contents` field is absent at runtime (the TypeScript type is erased)
  is modelled with `Option`.
* `createHash("md5")...digest("hex")` is implemented directly: `md5Hex`
  below is RFC 1321 MD5 over byte lists, producing the lowercase hex
  digest string.
* The filesystem is explicit state: an association list from paths to
  the parsed shape of the stored bytes, plus environment flags that say
  whether a write (`mkdir`/`writeFile`/`JSON.stringify`) or a removal
  (`rm` failing for a reason other than absence) fails, and a log of
  the filesystem operations performed.
* `JSON.parse` results are modelled by `Json` (strings, numbers,
  objects — the shapes exercised here; the reference code does not
  validate the parsed value, so the model keeps the parsed value as
  is).  Raw bytes that fail to parse are `DiskContent.invalid`.
* JavaScript `Map` values are association lists with unique keys kept
  in insertion order; `Map.set`, `Map.get`, `Map.delete` become
  `mapSet`, `lookupKey`, filtering.
* Exceptions become an `Except` result; since a JavaScript exception
  does not roll back mutations already performed, every operation also
  returns the (possibly mutated) tracker and world state.
-/

/-! ## MD5 (RFC 1321) over byte lists -/

def u32 (x : Nat) : Nat := x % 4294967296

def rotl (x n : Nat) : Nat := u32 ((x <<< n) ||| (x >>> (32 - n)))

def md5K : List Nat := [
  0xd76aa478, 0xe8c7b756, 0x242070db, 0xc1bdceee,
  0xf57c0faf, 0x4787c62a, 0xa8304613, 0xfd469501,
  0x698098d8, 0x8b44f7af, 0xffff5bb1, 0x895cd7be,
  0x6b901122, 0xfd987193, 0xa679438e, 0x49b40821,
  0xf61e2562, 0xc040b340, 0x265e5a51, 0xe9b6c7aa,
  0xd62f105d, 0x02441453, 0xd8a1e681, 0xe7d3fbc8,
  0x21e1cde6, 0xc33707d6, 0xf4d50d87, 0x455a14ed,
  0xa9e3e905, 0xfcefa3f8, 0x676f02d9, 0x8d2a4c8a,
  0xfffa3942, 0x8771f681, 0x6d9d6122, 0xfde5380c,
  0xa4beea44, 0x4bdecfa9, 0xf6bb4b60, 0xbebfbc70,
  0x289b7ec6, 0xeaa127fa, 0xd4ef3085, 0x04881d05,
  0xd9d4d039, 0xe6db99e5, 0x1fa27cf8, 0xc4ac5665,
  0xf4292244, 0x432aff97, 0xab9423a7, 0xfc93a039,
  0x655b59c3, 0x8f0ccc92, 0xffeff47d, 0x85845dd1,
  0x6fa87e4f, 0xfe2ce6e0, 0xa3014314, 0x4e0811a1,
  0xf7537e82, 0xbd3af235, 0x2ad7d2bb, 0xeb86d391]

def md5S : List Nat := [
  7, 12, 17, 22, 7, 12, 17, 22, 7, 12, 17, 22, 7, 12, 17, 22,
  5, 9, 14, 20, 5, 9, 14, 20, 5, 9, 14, 20, 5, 9, 14, 20,
  4, 11, 16, 23, 4, 11, 16, 23, 4, 11, 16, 23, 4, 11, 16, 23,
  6, 10, 15, 21, 6, 10, 15, 21, 6, 10, 15, 21, 6, 10, 15, 21]

def md5F (i b c d : Nat) : Nat :=
  if i < 16 then (b &&& c) ||| ((b ^^^ 0xffffffff) &&& d)
  else if i < 32 then (d &&& b) ||| ((d ^^^ 0xffffffff) &&& c)
  else if i < 48 then b ^^^ c ^^^ d
  else c ^^^ (b ||| (d ^^^ 0xffffffff))

def md5G (i : Nat) : Nat :=
  if i < 16 then i
  else if i < 32 then (5 * i + 1) % 16
  else if i < 48 then (3 * i + 5) % 16
  else (7 * i) % 16

def md5Step (m : List Nat) (st : Nat × Nat × Nat × Nat) (i : Nat) : Nat × Nat × Nat × Nat :=
  match st with
  | (a, b, c, d) =>
    let f := md5F i b c d
    let g := md5G i
    let x := u32 (a + f + md5K.getD i 0 + m.getD g 0)
    (d, u32 (b + rotl x (md5S.getD i 0)), b, c)

def md5Block (st : Nat × Nat × Nat × Nat) (m : List Nat) : Nat × Nat × Nat × Nat :=
  match (List.range 64).foldl (md5Step m) st, st with
  | (a, b, c, d), (a0, b0, c0, d0) => (u32 (a0 + a), u32 (b0 + b), u32 (c0 + c), u32 (d0 + d))

def wordsOfBytes : List Nat → List Nat
  | b0 :: b1 :: b2 :: b3 :: rest =>
      (b0 + 256 * b1 + 65536 * b2 + 16777216 * b3) :: wordsOfBytes rest
  | _ => []

def leBytes : Nat → Nat → List Nat
  | 0, _ => []
  | k + 1, v => v % 256 :: leBytes k (v / 256)

def md5Pad (msg : List Nat) : List Nat :=
  msg ++ 128 :: List.replicate ((119 - msg.length % 64) % 64) 0 ++ leBytes 8 (8 * msg.length)

def chunksAux : Nat → List Nat → List (List Nat)
  | 0, _ => []
  | _ + 1, [] => []
  | fuel + 1, l => l.take 64 :: chunksAux fuel (l.drop 64)

def chunks64 (l : List Nat) : List (List Nat) := chunksAux l.length l

def md5Init : Nat × Nat × Nat × Nat := (0x67452301, 0xefcdab89, 0x98badcfe, 0x10325476)

def md5Bytes (msg : List Nat) : List Nat :=
  match (chunks64 (md5Pad msg)).foldl (fun st blk => md5Block st (wordsOfBytes blk)) md5Init with
  | (a, b, c, d) => leBytes 4 a ++ leBytes 4 b ++ leBytes 4 c ++ leBytes 4 d

def hexDigit (n : Nat) : Char :=
  if n < 10 then Char.ofNat (48 + n) else Char.ofNat (87 + n)

def hexChars : List Nat → List Char
  | [] => []
  | b :: rest => hexDigit (b / 16) :: hexDigit (b % 16) :: hexChars rest

/-- `createHash("md5").update(bytes).digest("hex")`. -/
def md5Hex (msg : List Nat) : String := String.mk (hexChars (md5Bytes msg))

/-! ## JSON values and the history file on disk -/

/-- The result of a successful `JSON.parse` on the shapes relevant to the
history file: strings, numbers and objects.  The reference `loadHistory`
performs no validation of the parsed value. -/
inductive Json where
  | jstr (s : String)
  | jnum (n : Int)
  | jobj (fields : List (String × Json))

/-- Bytes stored at a path: either bytes that parse as the given JSON
value, or bytes on which `JSON.parse` throws. -/
inductive DiskContent where
  | jsonVal (v : Json)
  | invalid

/-! ## Association-list maps (JavaScript `Map` / object semantics) -/

/-- `Map.get` / JS object property lookup on an insertion-ordered
association list. -/
def lookupKey (k : String) : List (String × α) → Option α
  | [] => none
  | kv :: rest => if kv.1 = k then some kv.2 else lookupKey k rest

/-- `Map.set`: replace the binding in place if the key is present,
otherwise append. -/
def mapSet : List (String × α) → String → α → List (String × α)
  | [], k, v => [(k, v)]
  | kv :: rest, k, v => if kv.1 = k then (k, v) :: rest else kv :: mapSet rest k v

/-- Membership of `p` among the keys (`currentFiles.has(p)`). -/
def keyMem (p : String) (l : List (String × β)) : Bool :=
  l.any (fun f => f.1 == p)

/-- JS property access `v[k]` on a parsed JSON value.  Objects look the
key up; primitive strings expose `length` and their canonical numeric
indices as own properties (prototype methods are not modelled); numbers
have no own properties. -/
def jsonIndex (v : Json) (k : String) : Option Json :=
  match v with
  | Json.jobj fields => lookupKey k fields
  | Json.jstr s =>
      if k = "length" then some (Json.jnum s.length)
      else
        match k.toNat? with
        | some i => if toString i = k ∧ i < s.data.length
            then (s.data.getD i ' ') |> (fun c => some (Json.jstr (String.mk [c])))
            else none
        | none => none
  | Json.jnum _ => none

/-- JS truthiness of `loadedHistory[filepath]` (`undefined`, `""` and
`0` are falsy). -/
def jsTruthy : Option Json → Bool
  | none => false
  | some (Json.jstr s) => s != ""
  | some (Json.jnum n) => n != 0
  | some (Json.jobj _) => true

/-- JS strict inequality `previousFingerprint !== currentFingerprint`
between a possibly-absent parsed value and a possibly-absent string. -/
def jsStrictNe : Option Json → Option String → Bool
  | some (Json.jstr s), some t => s != t
  | none, none => false
  | _, _ => true

/-! ## Data model (`types.ts`) -/

/-- A file record: the only attribute inspected is its raw byte
content.  `none` models a record whose `contents` field is absent at
runtime (e.g. `undefined as unknown as Buffer`). -/
structure FileRecord where
  contents : Option (List Nat)
  deriving DecidableEq

/-- `FileChangeStatus`. -/
inductive FileChangeStatus where
  | new
  | modified
  | unchanged
  | untracked
  deriving DecidableEq

/-- `FileChangeState`.  The reference code stores whatever value the
loaded history held at the path, so the field is a parsed JSON value,
not necessarily a string. -/
structure FileChangeState where
  status : FileChangeStatus
  previousFingerprint : Option Json

/-- `ChangeTrackerErrorType`, plus the `InvalidInput` condition (the
`TypeError` thrown by `crypto` when `update` is given a non-byte-sequence
value).  `historyWriteError` carries the wrapped underlying cause. -/
inductive TrackerError where
  | historyPathNotSet
  | historyWriteError (cause : String)
  | invalidInput
  deriving DecidableEq

/-- `ChangeTrackerConfig` after the constructor has applied the
`enabled ?? true` default. -/
structure Config where
  historyPath : String
  enabled : Bool
  deriving DecidableEq

/-- The tracker instance: configuration plus the private in-memory
`fileStates` map. -/
structure Tracker where
  config : Config
  fileStates : List (String × FileChangeState)

/-- `new ChangeTrackerImpl({historyPath, enabled})`: `fileStates` starts
empty and `enabled` defaults to `true`. -/
def mkTracker (historyPath : String) (enabled : Option Bool) : Tracker :=
  { config := { historyPath := historyPath, enabled := enabled.getD true }, fileStates := [] }

/-- A logged filesystem operation. -/
inductive FsOp where
  | read (path : String)
  | write (path : String)
  | remove (path : String)
  deriving DecidableEq

/-- The world outside the tracker: the filesystem (path to stored
content), environment flags saying whether the next write
(`mkdir`/`writeFile`/serialization) or removal (an `rm` failure other
than absence) fails and with what underlying cause, and the log of
filesystem operations performed. -/
structure World where
  fs : List (String × DiskContent)
  writeFails : Option String
  rmFails : Option String
  ops : List FsOp

/-- What a `trackChanges` call hands back on success: either the live
internal `fileStates` map itself (`return this.fileStates`) or a freshly
allocated map (`return new Map(...)`).  Distinguishing the two captures
JavaScript reference semantics: mutating the former mutates the
tracker's own state. -/
inductive RetStates where
  | internalRef
  | freshMap (m : List (String × FileChangeState))

/-- The entries a caller reads off the returned map. -/
def retStates (r : RetStates) (t : Tracker) : List (String × FileChangeState) :=
  match r with
  | RetStates.internalRef => t.fileStates
  | RetStates.freshMap m => m

/-- The caller performs `returned.set(k, v)` on the map it received.
On the live internal reference this mutates the tracker; on a fresh map
the tracker is untouched. -/
def callerSet (r : RetStates) (t : Tracker) (k : String) (v : FileChangeState) : Tracker :=
  match r with
  | RetStates.internalRef => { t with fileStates := mapSet t.fileStates k v }
  | RetStates.freshMap _ => t

/-- Result of a `trackChanges` call: the value or error, plus the
tracker and world as the call leaves them (exceptions do not roll back
mutations already performed). -/
structure TrackOutcome where
  result : Except TrackerError RetStates
  tracker : Tracker
  world : World

/-- Result of a `clearHistory` call. -/
structure ClearOutcome where
  result : Except TrackerError Unit
  tracker : Tracker
  world : World

/-! ## Operations (`index.ts`) -/

/-- `createFingerprint`: MD5 hex digest of the contents; `crypto` throws
(`InvalidInput`) when the contents are not a byte sequence. -/
def createFingerprint (file : FileRecord) : Except TrackerError String :=
  match file.contents with
  | some bytes => Except.ok (md5Hex bytes)
  | none => Except.error TrackerError.invalidInput

/-- The value `JSON.parse` hands back from the bytes at the history
path, with the `catch` already applied: a missing file or unparseable
bytes give the empty object (fresh start). -/
def parseDisk : Option DiskContent → Json
  | some (DiskContent.jsonVal v) => v
  | some DiskContent.invalid => Json.jobj []
  | none => Json.jobj []

/-- `loadHistory`: fail with `HISTORY_PATH_NOT_SET` when no path is
configured; otherwise read the file and parse it, any failure giving an
empty history.  The filesystem itself is never modified. -/
def loadHistory (t : Tracker) (w : World) : Except TrackerError Json × World :=
  if t.config.historyPath = "" then
    (Except.error TrackerError.historyPathNotSet, w)
  else
    (Except.ok (parseDisk (lookupKey t.config.historyPath w.fs)),
     { w with ops := w.ops ++ [FsOp.read t.config.historyPath] })

/-- The JSON object `JSON.stringify(fingerprints, null, 2)` serializes:
each path bound to its fingerprint string. -/
def historyJson (fps : List (String × String)) : Json :=
  Json.jobj (fps.map (fun pf => (pf.1, Json.jstr pf.2)))

/-- `saveHistory`: fail with `HISTORY_PATH_NOT_SET` when no path is
configured; otherwise create directories and write the serialized
fingerprints, wrapping any underlying failure in
`HISTORY_WRITE_ERROR`. -/
def saveHistory (fps : List (String × String)) (t : Tracker) (w : World) :
    Except TrackerError Unit × World :=
  if t.config.historyPath = "" then
    (Except.error TrackerError.historyPathNotSet, w)
  else
    match w.writeFails with
    | some cause =>
        (Except.error (TrackerError.historyWriteError cause),
         { w with ops := w.ops ++ [FsOp.write t.config.historyPath] })
    | none =>
        (Except.ok (),
         { w with
            fs := mapSet w.fs t.config.historyPath (DiskContent.jsonVal (historyJson fps)),
            ops := w.ops ++ [FsOp.write t.config.historyPath] })

/-- The `Object.entries(files).reduce` computing `newFingerprints`: the
first fingerprinting failure aborts the whole computation. -/
def computeFingerprints : List (String × FileRecord) → Except TrackerError (List (String × String))
  | [] => Except.ok []
  | pf :: rest =>
    match createFingerprint pf.2 with
    | Except.error e => Except.error e
    | Except.ok fp =>
      match computeFingerprints rest with
      | Except.error e => Except.error e
      | Except.ok tail => Except.ok ((pf.1, fp) :: tail)

/-- The body of the state-update loop for one path: status and stored
previous fingerprint, from `loadedHistory[filepath]` (with JS
truthiness deciding `isNew`) and `newFingerprints[filepath]` (strict
inequality deciding `modified`). -/
def stateFor (loaded : Json) (fps : List (String × String)) (p : String) : FileChangeState :=
  let previousFingerprint := jsonIndex loaded p
  let currentFingerprint := lookupKey p fps
  let isNew := !(jsTruthy previousFingerprint)
  { status :=
      if isNew then FileChangeStatus.new
      else if jsStrictNe previousFingerprint currentFingerprint then FileChangeStatus.modified
      else FileChangeStatus.unchanged,
    previousFingerprint := if isNew then none else previousFingerprint }

/-- The `for (const [filepath, file] of Object.entries(files))` loop:
`this.fileStates.set(filepath, state)` for each input path in order. -/
def updateStates (loaded : Json) (fps : List (String × String))
    (files : List (String × FileRecord))
    (states : List (String × FileChangeState)) : List (String × FileChangeState) :=
  files.foldl (fun acc pf => mapSet acc pf.1 (stateFor loaded fps pf.1)) states

/-- The deleted-files loop: every in-memory state whose path is not in
the current input set is removed. -/
def pruneStates (states : List (String × FileChangeState))
    (files : List (String × FileRecord)) : List (String × FileChangeState) :=
  states.filter (fun kv => keyMem kv.1 files)

/-- `trackChanges`.  Disabled: return a fresh map of `untracked` states
without touching history or the in-memory states.  Enabled: load
history, compute fingerprints (first failure aborts), prune states for
deleted files, update states per path, save the new fingerprints, and
return the live internal state map. -/
def trackChanges (files : List (String × FileRecord)) (t : Tracker) (w : World) : TrackOutcome :=
  if !t.config.enabled then
    { result := Except.ok (RetStates.freshMap (files.map (fun pf =>
        (pf.1, { status := FileChangeStatus.untracked, previousFingerprint := none })))),
      tracker := t, world := w }
  else
    match loadHistory t w with
    | (Except.error e, w') => { result := Except.error e, tracker := t, world := w' }
    | (Except.ok loaded, w') =>
      match computeFingerprints files with
      | Except.error e => { result := Except.error e, tracker := t, world := w' }
      | Except.ok newFps =>
        let t' : Tracker := { t with
          fileStates := updateStates loaded newFps files (pruneStates t.fileStates files) }
        match saveHistory newFps t' w' with
        | (Except.error e, w2) => { result := Except.error e, tracker := t', world := w2 }
        | (Except.ok _, w2) => { result := Except.ok RetStates.internalRef, tracker := t', world := w2 }

/-- `getFileState`: pure lookup into the in-memory states. -/
def getFileState (p : String) (t : Tracker) : Option FileChangeState :=
  lookupKey p t.fileStates

/-- `clearHistory`: fail with `HISTORY_PATH_NOT_SET` when no path is
configured; `rm` with `force` (absence is success), wrapping any other
failure in `HISTORY_WRITE_ERROR`; the in-memory states are cleared only
after the removal succeeded. -/
def clearHistory (t : Tracker) (w : World) : ClearOutcome :=
  if t.config.historyPath = "" then
    { result := Except.error TrackerError.historyPathNotSet, tracker := t, world := w }
  else
    match w.rmFails with
    | some cause =>
        { result := Except.error (TrackerError.historyWriteError cause),
          tracker := t,
          world := { w with ops := w.ops ++ [FsOp.remove t.config.historyPath] } }
    | none =>
        { result := Except.ok (),
          tracker := { t with fileStates := [] },
          world := { w with
            fs := w.fs.filter (fun kv => kv.1 != t.config.historyPath),
            ops := w.ops ++ [FsOp.remove t.config.historyPath] } }

/-! ## Helper lemmas -/

theorem md5Bytes_ne_nil (msg : List Nat) : md5Bytes msg ≠ [] := fun h => List.noConfusion h

theorem md5Hex_ne_empty (msg : List Nat) : md5Hex msg ≠ "" := by
  intro h
  have hd : hexChars (md5Bytes msg) = [] := congrArg String.data h
  cases hb : md5Bytes msg with
  | nil => exact md5Bytes_ne_nil msg hb
  | cons b rest => rw [hb] at hd; exact List.noConfusion hd

theorem lookupKey_mapSet_self (m : List (String × α)) (k : String) (v : α) :
    lookupKey k (mapSet m k v) = some v := by
  induction m with
  | nil => simp [mapSet, lookupKey]
  | cons kv rest ih =>
    by_cases h : kv.1 = k <;> simp [mapSet, lookupKey, h, ih]

theorem lookupKey_mapSet_ne (m : List (String × α)) (k p : String) (v : α) (hne : p ≠ k) :
    lookupKey p (mapSet m k v) = lookupKey p m := by
  have hkp : k ≠ p := Ne.symm hne
  induction m with
  | nil => simp [mapSet, lookupKey, hkp]
  | cons kv rest ih =>
    by_cases h : kv.1 = k
    · subst h
      simp [mapSet, lookupKey, hkp]
    · by_cases hp : kv.1 = p <;> simp [mapSet, lookupKey, h, hp, hne, ih]

theorem keyMem_iff (p : String) (l : List (String × β)) :
    keyMem p l = true ↔ p ∈ l.map Prod.fst := by
  simp [keyMem, List.any_eq_true, List.mem_map]

theorem lookupKey_pruneStates_of_not_mem (states : List (String × FileChangeState))
    (files : List (String × FileRecord)) (p : String)
    (hp : p ∉ files.map Prod.fst) :
    lookupKey p (pruneStates states files) = none := by
  induction states with
  | nil => rfl
  | cons kv rest ih =>
    cases h : keyMem kv.1 files with
    | true =>
      have hne : kv.1 ≠ p := fun he => hp (he ▸ (keyMem_iff kv.1 files).mp h)
      simpa [pruneStates, List.filter_cons, h, lookupKey, hne] using ih
    | false =>
      simpa [pruneStates, List.filter_cons, h] using ih

theorem updateStates_cons (loaded : Json) (fps : List (String × String))
    (pf : String × FileRecord) (rest : List (String × FileRecord))
    (acc : List (String × FileChangeState)) :
    updateStates loaded fps (pf :: rest) acc =
      updateStates loaded fps rest (mapSet acc pf.1 (stateFor loaded fps pf.1)) := rfl

theorem lookupKey_updateStates_of_not_mem (loaded : Json) (fps : List (String × String))
    (files : List (String × FileRecord)) (acc : List (String × FileChangeState)) (p : String)
    (hp : p ∉ files.map Prod.fst) :
    lookupKey p (updateStates loaded fps files acc) = lookupKey p acc := by
  induction files generalizing acc with
  | nil => rfl
  | cons pf rest ih =>
    simp only [List.map_cons, List.mem_cons, not_or] at hp
    rw [updateStates_cons, ih _ hp.2]
    exact lookupKey_mapSet_ne acc pf.1 p (stateFor loaded fps pf.1) hp.1

theorem lookupKey_updateStates_of_mem (loaded : Json) (fps : List (String × String))
    (files : List (String × FileRecord)) (acc : List (String × FileChangeState)) (p : String)
    (hp : p ∈ files.map Prod.fst) :
    lookupKey p (updateStates loaded fps files acc) = some (stateFor loaded fps p) := by
  induction files generalizing acc with
  | nil => simp at hp
  | cons pf rest ih =>
    rw [updateStates_cons]
    by_cases hmem : p ∈ rest.map Prod.fst
    · exact ih _ hmem
    · have hph : p = pf.1 := by
        simp only [List.map_cons, List.mem_cons] at hp
        tauto
      subst hph
      rw [lookupKey_updateStates_of_not_mem loaded fps rest _ pf.1 hmem]
      exact lookupKey_mapSet_self acc pf.1 (stateFor loaded fps pf.1)

theorem computeFingerprints_keys (files : List (String × FileRecord))
    (fps : List (String × String)) (h : computeFingerprints files = Except.ok fps) :
    fps.map Prod.fst = files.map Prod.fst := by
  induction files generalizing fps with
  | nil =>
    simp only [computeFingerprints, Except.ok.injEq] at h
    rw [← h]
    rfl
  | cons pf rest ih =>
    cases hc : createFingerprint pf.2 with
    | error e => simp [computeFingerprints, hc] at h
    | ok fp =>
      cases hr : computeFingerprints rest with
      | error e => simp [computeFingerprints, hc, hr] at h
      | ok tail =>
        simp only [computeFingerprints, hc, hr, Except.ok.injEq] at h
        rw [← h]
        simp [ih tail hr]

theorem computeFingerprints_lookup (files : List (String × FileRecord))
    (fps : List (String × String)) (p : String) (rec : FileRecord) (bs : List Nat)
    (hok : computeFingerprints files = Except.ok fps)
    (hnodup : (files.map Prod.fst).Nodup)
    (hmem : (p, rec) ∈ files) (hbs : rec.contents = some bs) :
    lookupKey p fps = some (md5Hex bs) := by
  induction files generalizing fps with
  | nil => simp at hmem
  | cons pf rest ih =>
    cases hc : createFingerprint pf.2 with
    | error e => simp [computeFingerprints, hc] at hok
    | ok fp =>
      cases hr : computeFingerprints rest with
      | error e => simp [computeFingerprints, hc, hr] at hok
      | ok tail =>
        simp only [computeFingerprints, hc, hr, Except.ok.injEq] at hok
        rw [← hok]
        rcases List.mem_cons.mp hmem with hhead | htail
        · have hpf : pf = (p, rec) := hhead.symm
          subst hpf
          simp only [createFingerprint, hbs, Except.ok.injEq] at hc
          simp [lookupKey, ← hc]
        · have hne : pf.1 ≠ p := by
            intro he
            have hin : p ∈ rest.map Prod.fst :=
              List.mem_map.mpr ⟨(p, rec), htail, rfl⟩
            simp only [List.map_cons, List.nodup_cons] at hnodup
            exact hnodup.1 (he ▸ hin)
          have hnodup2 : (rest.map Prod.fst).Nodup := by
            simp only [List.map_cons, List.nodup_cons] at hnodup
            exact hnodup.2
          simp [lookupKey, hne, ih tail hr hnodup2 htail]

theorem computeFingerprints_invalid (files : List (String × FileRecord))
    (p : String) (rec : FileRecord)
    (hmem : (p, rec) ∈ files) (hnone : rec.contents = none) :
    computeFingerprints files = Except.error TrackerError.invalidInput := by
  induction files with
  | nil => simp at hmem
  | cons pf rest ih =>
    rcases List.mem_cons.mp hmem with hhead | htail
    · have hpf : pf = (p, rec) := hhead.symm
      subst hpf
      simp [computeFingerprints, createFingerprint, hnone]
    · cases hc : pf.2.contents with
      | none => simp [computeFingerprints, createFingerprint, hc]
      | some bs2 => simp [computeFingerprints, createFingerprint, hc, ih htail]

theorem jsTruthy_some_of_true (o : Option Json) (h : jsTruthy o = true) : ∃ v, o = some v := by
  cases o with
  | none => simp [jsTruthy] at h
  | some v => exact ⟨v, rfl⟩

/-- The per-path invariant of the update loop: the stored previous
fingerprint is present exactly when the status is `modified` or
`unchanged`. -/
theorem stateFor_invariant (loaded : Json) (fps : List (String × String)) (p : String) :
    (stateFor loaded fps p).previousFingerprint.isSome = true ↔
      ((stateFor loaded fps p).status = FileChangeStatus.modified ∨
       (stateFor loaded fps p).status = FileChangeStatus.unchanged) := by
  unfold stateFor
  cases htr : jsTruthy (jsonIndex loaded p) with
  | false => simp [htr]
  | true =>
    obtain ⟨v, hv⟩ := jsTruthy_some_of_true _ htr
    rw [hv] at htr
    cases hne : jsStrictNe (jsonIndex loaded p) (lookupKey p fps) <;>
      simp [hv, htr, hne]

/-- Anatomy of a successful enabled `trackChanges` run: a history path
was configured, fingerprinting succeeded, the write succeeded, the
returned value is the live internal map, the tracker holds the pruned
and updated states, and the world holds the rewritten history file plus
the read and write in the log. -/
theorem run_ok_characterization
    (files : List (String × FileRecord)) (t : Tracker) (w : World)
    (r : RetStates) (t2 : Tracker) (w2 : World)
    (henabled : t.config.enabled = true)
    (hrun : trackChanges files t w = { result := Except.ok r, tracker := t2, world := w2 }) :
    ∃ fps,
      t.config.historyPath ≠ "" ∧
      computeFingerprints files = Except.ok fps ∧
      w.writeFails = none ∧
      r = RetStates.internalRef ∧
      t2 = { t with fileStates :=
        (updateStates (parseDisk (lookupKey t.config.historyPath w.fs)) fps files
          (pruneStates t.fileStates files)) } ∧
      w2 = { w with
        fs := (mapSet w.fs t.config.historyPath
          (DiskContent.jsonVal (historyJson fps))),
        ops := (w.ops ++ [FsOp.read t.config.historyPath]) ++ [FsOp.write t.config.historyPath] } := by
  by_cases hpath : t.config.historyPath = ""
  · simp [trackChanges, henabled, loadHistory, hpath] at hrun
  · cases hfps : computeFingerprints files with
    | error e =>
      simp [trackChanges, henabled, loadHistory, hpath, hfps] at hrun
    | ok fps =>
      cases hw : w.writeFails with
      | some cause =>
        simp [trackChanges, henabled, loadHistory, hpath, hfps, saveHistory, hw] at hrun
      | none =>
        refine ⟨fps, hpath, rfl, rfl, ?_⟩
        simp only [trackChanges, henabled, loadHistory, hpath, hfps, saveHistory, hw] at hrun
        simp only [Bool.not_true, if_neg, ite_false, if_false] at hrun
        obtain ⟨h1, h2, h3⟩ := TrackOutcome.mk.injEq _ _ _ _ _ _ ▸ hrun
        exact ⟨(Except.ok.injEq _ _ ▸ h1).symm, h2.symm, h3.symm⟩

/-! ## Concrete fixtures -/

/-- An empty filesystem with no environment failures. -/
def worldEmpty : World := { fs := [], writeFails := none, rmFails := none, ops := [] }

/-- A record holding the byte content of the string `x`. -/
def recX : FileRecord := { contents := some [120] }

/-! ## C1 -/

/-- C1 (amended): with tracking disabled, `trackChanges` returns a fresh
map assigning every input path status `untracked` with no previous
fingerprint, reads and writes no history, and leaves the in-memory
runtime state unchanged — a subsequent `getFileState` is unaffected by
the disabled run (in particular, it does not report `untracked` for
paths never seen by an enabled run). -/
theorem disabled_bypass_no_state_update
    (files : List (String × FileRecord)) (t : Tracker) (w : World)
    (hdis : t.config.enabled = false) :
    trackChanges files t w =
      { result := Except.ok (RetStates.freshMap (files.map (fun pf =>
          (pf.1, { status := FileChangeStatus.untracked, previousFingerprint := none })))),
        tracker := t, world := w } ∧
    ∀ p, getFileState p (trackChanges files t w).tracker = getFileState p t := by
  have h : trackChanges files t w =
      { result := Except.ok (RetStates.freshMap (files.map (fun pf =>
          (pf.1, { status := FileChangeStatus.untracked, previousFingerprint := none })))),
        tracker := t, world := w } := by
    simp [trackChanges, hdis]
  exact ⟨h, fun p => by rw [h]⟩

/-- C1 witness: a concrete disabled run over the path `a`. -/
theorem disabled_bypass_no_state_update_witness :
    (mkTracker "h" (some false)).config.enabled = false ∧
    (trackChanges [("a", recX)] (mkTracker "h" (some false)) worldEmpty =
      { result := Except.ok (RetStates.freshMap ([("a", recX)].map (fun pf =>
          (pf.1, { status := FileChangeStatus.untracked, previousFingerprint := none })))),
        tracker := mkTracker "h" (some false), world := worldEmpty } ∧
     ∀ p, getFileState p (trackChanges [("a", recX)] (mkTracker "h" (some false)) worldEmpty).tracker =
       getFileState p (mkTracker "h" (some false))) :=
  ⟨rfl, disabled_bypass_no_state_update [("a", recX)] (mkTracker "h" (some false)) worldEmpty rfl⟩

/-- C1 counterexample: a disabled run over the path `a` returns the
`untracked` state for `a`, yet `getFileState "a"` after the call is
`none`, not the `untracked` state — the disabled bypass does not update
the in-memory runtime state. -/
theorem c1_counterexample :
    (trackChanges [("a", recX)] (mkTracker "h" (some false)) worldEmpty).result =
      Except.ok (RetStates.freshMap
        [("a", { status := FileChangeStatus.untracked, previousFingerprint := none })]) ∧
    getFileState "a"
      (trackChanges [("a", recX)] (mkTracker "h" (some false)) worldEmpty).tracker = none :=
  ⟨rfl, rfl⟩

/-! ## C2 -/

/-- C2: in an enabled run with a configured history path, a record whose
contents are not a byte sequence makes fingerprinting fail with the
`InvalidInput` condition, and `trackChanges` aborts with exactly that
error before any history mutation (the filesystem is unchanged) and
without modifying the runtime state left by prior runs. -/
theorem invalid_contents_aborts
    (files : List (String × FileRecord)) (t : Tracker) (w : World)
    (p : String) (rec : FileRecord)
    (henabled : t.config.enabled = true) (hpath : t.config.historyPath ≠ "")
    (hmem : (p, rec) ∈ files) (hnone : rec.contents = none) :
    createFingerprint rec = Except.error TrackerError.invalidInput ∧
    (trackChanges files t w).result = Except.error TrackerError.invalidInput ∧
    (trackChanges files t w).tracker = t ∧
    (trackChanges files t w).world.fs = w.fs := by
  have hfp : computeFingerprints files = Except.error TrackerError.invalidInput :=
    computeFingerprints_invalid files p rec hmem hnone
  have h : trackChanges files t w =
      { result := Except.error TrackerError.invalidInput, tracker := t,
        world := { w with ops := w.ops ++ [FsOp.read t.config.historyPath] } } := by
    simp [trackChanges, henabled, loadHistory, hpath, hfp]
  refine ⟨by simp [createFingerprint, hnone], ?_, ?_, ?_⟩ <;> rw [h]

/-- C2 witness: a concrete enabled run over a record with absent
contents. -/
theorem invalid_contents_aborts_witness :
    (mkTracker "h" none).config.enabled = true ∧
    (mkTracker "h" none).config.historyPath ≠ "" ∧
    ("a", ({ contents := none } : FileRecord)) ∈ [("a", ({ contents := none } : FileRecord))] ∧
    ({ contents := none } : FileRecord).contents = none ∧
    (createFingerprint { contents := none } = Except.error TrackerError.invalidInput ∧
     (trackChanges [("a", { contents := none })] (mkTracker "h" none) worldEmpty).result =
       Except.error TrackerError.invalidInput ∧
     (trackChanges [("a", { contents := none })] (mkTracker "h" none) worldEmpty).tracker =
       mkTracker "h" none ∧
     (trackChanges [("a", { contents := none })] (mkTracker "h" none) worldEmpty).world.fs =
       worldEmpty.fs) :=
  ⟨rfl, by decide, List.mem_singleton.mpr rfl, rfl,
   invalid_contents_aborts [("a", { contents := none })] (mkTracker "h" none) worldEmpty
     "a" { contents := none } rfl (by decide) (List.mem_singleton.mpr rfl) rfl⟩

/-! ## C8 -/

/-- C8: with an empty (unset) history path, the history-touching
operations — an enabled `trackChanges` and `clearHistory` — fail with
`HistoryPathNotSet` leaving the tracker and the entire world (filesystem
and operation log) untouched: no read, write or removal happens. -/
theorem empty_path_no_fs_touch
    (files : List (String × FileRecord)) (t : Tracker) (w : World)
    (henabled : t.config.enabled = true) (hpath : t.config.historyPath = "") :
    trackChanges files t w =
      { result := Except.error TrackerError.historyPathNotSet, tracker := t, world := w } ∧
    clearHistory t w =
      { result := Except.error TrackerError.historyPathNotSet, tracker := t, world := w } := by
  constructor
  · simp [trackChanges, henabled, loadHistory, hpath]
  · simp [clearHistory, hpath]

/-- C8 witness: a tracker constructed with `historyPath` set to the
empty string. -/
theorem empty_path_no_fs_touch_witness :
    (mkTracker "" none).config.enabled = true ∧
    (mkTracker "" none).config.historyPath = "" ∧
    (trackChanges [("a", recX)] (mkTracker "" none) worldEmpty =
      { result := Except.error TrackerError.historyPathNotSet,
        tracker := mkTracker "" none, world := worldEmpty } ∧
     clearHistory (mkTracker "" none) worldEmpty =
      { result := Except.error TrackerError.historyPathNotSet,
        tracker := mkTracker "" none, world := worldEmpty }) :=
  ⟨rfl, rfl, empty_path_no_fs_touch [("a", recX)] (mkTracker "" none) worldEmpty rfl rfl⟩

/-! ## C10 -/

/-- C10: when `clearHistory` fails with `HistoryWriteError` (the removal
fails for a reason other than absence), the in-memory runtime state is
left unchanged — it is cleared only after a successful removal — so
`getFileState` still returns the pre-call states, and the filesystem is
unchanged. -/
theorem clear_failure_preserves_state
    (t : Tracker) (w : World) (cause : String)
    (hpath : t.config.historyPath ≠ "") (hfail : w.rmFails = some cause) :
    (clearHistory t w).result = Except.error (TrackerError.historyWriteError cause) ∧
    (clearHistory t w).tracker = t ∧
    (clearHistory t w).world.fs = w.fs ∧
    ∀ p, getFileState p (clearHistory t w).tracker = getFileState p t := by
  have h : clearHistory t w =
      { result := Except.error (TrackerError.historyWriteError cause), tracker := t,
        world := { w with ops := w.ops ++ [FsOp.remove t.config.historyPath] } } := by
    simp [clearHistory, hpath, hfail]
  refine ⟨?_, ?_, ?_, fun p => ?_⟩ <;> rw [h]

/-- C10 witness: a concrete `clearHistory` call against a filesystem
whose removal fails with a permission error. -/
theorem clear_failure_preserves_state_witness :
    (mkTracker "h" none).config.historyPath ≠ "" ∧
    ({ fs := [("h", DiskContent.invalid)], writeFails := none,
       rmFails := some "eacces", ops := [] } : World).rmFails = some "eacces" ∧
    ((clearHistory (mkTracker "h" none)
        { fs := [("h", DiskContent.invalid)], writeFails := none,
          rmFails := some "eacces", ops := [] }).result =
       Except.error (TrackerError.historyWriteError "eacces") ∧
     (clearHistory (mkTracker "h" none)
        { fs := [("h", DiskContent.invalid)], writeFails := none,
          rmFails := some "eacces", ops := [] }).tracker = mkTracker "h" none ∧
     (clearHistory (mkTracker "h" none)
        { fs := [("h", DiskContent.invalid)], writeFails := none,
          rmFails := some "eacces", ops := [] }).world.fs =
       ({ fs := [("h", DiskContent.invalid)], writeFails := none,
          rmFails := some "eacces", ops := [] } : World).fs ∧
     ∀ p, getFileState p (clearHistory (mkTracker "h" none)
        { fs := [("h", DiskContent.invalid)], writeFails := none,
          rmFails := some "eacces", ops := [] }).tracker =
       getFileState p (mkTracker "h" none)) :=
  ⟨by decide, rfl,
   clear_failure_preserves_state (mkTracker "h" none)
     { fs := [("h", DiskContent.invalid)], writeFails := none,
       rmFails := some "eacces", ops := [] } "eacces" (by decide) rfl⟩

/-! ## C7 -/

/-- C7: when persisting the fingerprints fails, the enabled run fails
with `HistoryWriteError` wrapping the underlying cause and the
filesystem is unchanged (nothing was durably recorded), yet the
in-memory runtime state is exactly what the same run leaves behind when
the save succeeds — so `getFileState` after the failed call reports
current-run states that were never durably recorded. -/
theorem save_failure_state_visible
    (files : List (String × FileRecord)) (t : Tracker) (w : World)
    (fps : List (String × String)) (cause : String)
    (henabled : t.config.enabled = true) (hpath : t.config.historyPath ≠ "")
    (hfps : computeFingerprints files = Except.ok fps)
    (hfail : w.writeFails = some cause) :
    (trackChanges files t w).result = Except.error (TrackerError.historyWriteError cause) ∧
    (trackChanges files t w).tracker =
      (trackChanges files t { w with writeFails := none }).tracker ∧
    (trackChanges files t w).world.fs = w.fs := by
  have h1 : trackChanges files t w =
      { result := Except.error (TrackerError.historyWriteError cause),
        tracker := { t with fileStates :=
          (updateStates (parseDisk (lookupKey t.config.historyPath w.fs)) fps files
            (pruneStates t.fileStates files)) },
        world := { w with ops :=
          (w.ops ++ [FsOp.read t.config.historyPath]) ++ [FsOp.write t.config.historyPath] } } := by
    simp [trackChanges, henabled, loadHistory, hpath, hfps, saveHistory, hfail]
  have h2 : (trackChanges files t { w with writeFails := none }).tracker =
      { t with fileStates :=
        (updateStates (parseDisk (lookupKey t.config.historyPath w.fs)) fps files
          (pruneStates t.fileStates files)) } := by
    simp [trackChanges, henabled, loadHistory, hpath, hfps, saveHistory]
  refine ⟨by rw [h1], ?_, by rw [h1]⟩
  rw [h1, h2]

set_option maxRecDepth 100000 in
/-- C7 witness: a concrete enabled run whose history write fails. -/
theorem save_failure_state_visible_witness :
    (mkTracker "h" none).config.enabled = true ∧
    (mkTracker "h" none).config.historyPath ≠ "" ∧
    computeFingerprints [("a", recX)] = Except.ok [("a", md5Hex [120])] ∧
    ({ fs := [], writeFails := some "enospc", rmFails := none, ops := [] } : World).writeFails =
      some "enospc" ∧
    ((trackChanges [("a", recX)] (mkTracker "h" none)
        { fs := [], writeFails := some "enospc", rmFails := none, ops := [] }).result =
      Except.error (TrackerError.historyWriteError "enospc") ∧
     (trackChanges [("a", recX)] (mkTracker "h" none)
        { fs := [], writeFails := some "enospc", rmFails := none, ops := [] }).tracker =
      (trackChanges [("a", recX)] (mkTracker "h" none)
        { fs := ([] : List (String × DiskContent)), writeFails := none, rmFails := none,
          ops := ([] : List FsOp) }).tracker ∧
     (trackChanges [("a", recX)] (mkTracker "h" none)
        { fs := [], writeFails := some "enospc", rmFails := none, ops := [] }).world.fs =
      ({ fs := [], writeFails := some "enospc", rmFails := none, ops := [] } : World).fs) :=
  ⟨rfl, by decide, rfl, rfl,
   save_failure_state_visible [("a", recX)] (mkTracker "h" none)
     { fs := [], writeFails := some "enospc", rmFails := none, ops := [] }
     [("a", md5Hex [120])] "enospc" rfl (by decide) rfl rfl⟩

/-! ## C9 -/

/-- C9 (amended): a successful enabled `trackChanges` run returns the
live internal `fileStates` map itself — `return this.fileStates` — not
a defensive copy or immutable view: a caller setting an entry on the
returned map changes the tracker's internal runtime state as observed
by a later `getFileState`. -/
theorem returned_map_aliases_internal
    (files : List (String × FileRecord)) (t : Tracker) (w : World)
    (r : RetStates) (t2 : Tracker) (w2 : World)
    (henabled : t.config.enabled = true)
    (hrun : trackChanges files t w = { result := Except.ok r, tracker := t2, world := w2 }) :
    r = RetStates.internalRef ∧
    ∀ k v, getFileState k (callerSet r t2 k v) = some v := by
  obtain ⟨fps, -, -, -, hr, -, -⟩ := run_ok_characterization files t w r t2 w2 henabled hrun
  subst hr
  exact ⟨rfl, fun k v => lookupKey_mapSet_self t2.fileStates k v⟩

set_option maxRecDepth 100000 in
/-- C9 witness: a concrete successful enabled run. -/
theorem returned_map_aliases_internal_witness :
    (mkTracker "h" none).config.enabled = true ∧
    trackChanges [("a", recX)] (mkTracker "h" none) worldEmpty =
      { result := Except.ok RetStates.internalRef,
        tracker := (trackChanges [("a", recX)] (mkTracker "h" none) worldEmpty).tracker,
        world := (trackChanges [("a", recX)] (mkTracker "h" none) worldEmpty).world } ∧
    (RetStates.internalRef = RetStates.internalRef ∧
     ∀ k v, getFileState k (callerSet RetStates.internalRef
       (trackChanges [("a", recX)] (mkTracker "h" none) worldEmpty).tracker k v) = some v) :=
  ⟨rfl, rfl,
   returned_map_aliases_internal [("a", recX)] (mkTracker "h" none) worldEmpty
     RetStates.internalRef
     (trackChanges [("a", recX)] (mkTracker "h" none) worldEmpty).tracker
     (trackChanges [("a", recX)] (mkTracker "h" none) worldEmpty).world rfl rfl⟩

set_option maxRecDepth 100000 in
/-- C9 counterexample: after a concrete successful enabled run, the
path `a` reads back as `new`; the caller then sets `a` on the map the
call returned, and `getFileState` on the tracker now reports the
caller's value — mutating the returned structure does alter the
tracker's internal state, so it is not a defensive copy or immutable
view. -/
theorem c9_counterexample :
    (trackChanges [("a", recX)] (mkTracker "h" none) worldEmpty).result =
      Except.ok RetStates.internalRef ∧
    getFileState "a" (trackChanges [("a", recX)] (mkTracker "h" none) worldEmpty).tracker =
      some { status := FileChangeStatus.new, previousFingerprint := none } ∧
    getFileState "a" (callerSet RetStates.internalRef
        (trackChanges [("a", recX)] (mkTracker "h" none) worldEmpty).tracker "a"
        { status := FileChangeStatus.untracked, previousFingerprint := none }) =
      some { status := FileChangeStatus.untracked, previousFingerprint := none } ∧
    ({ status := FileChangeStatus.untracked, previousFingerprint := none } : FileChangeState) ≠
      { status := FileChangeStatus.new, previousFingerprint := none } :=
  ⟨rfl, rfl, rfl, by simp⟩

/-! ## C4 -/

/-- C4: after every successful enabled run, the history file at the
configured path holds exactly the freshly computed fingerprints of the
files passed in that run: its keys are exactly the input paths (so
entries for absent paths are dropped, never merged forward), every
input path with byte contents maps to the MD5 digest of those contents,
and no other filesystem path is modified. -/
theorem history_equals_fresh_fingerprints
    (files : List (String × FileRecord)) (t : Tracker) (w : World)
    (r : RetStates) (t2 : Tracker) (w2 : World)
    (henabled : t.config.enabled = true)
    (hrun : trackChanges files t w = { result := Except.ok r, tracker := t2, world := w2 }) :
    ∃ fps, computeFingerprints files = Except.ok fps ∧
      lookupKey t.config.historyPath w2.fs =
        some (DiskContent.jsonVal (historyJson fps)) ∧
      fps.map Prod.fst = files.map Prod.fst ∧
      ((files.map Prod.fst).Nodup → ∀ p rec bs, (p, rec) ∈ files → rec.contents = some bs →
        lookupKey p fps = some (md5Hex bs)) ∧
      (∀ q, q ≠ t.config.historyPath → lookupKey q w2.fs = lookupKey q w.fs) := by
  obtain ⟨fps, hpath, hfps, hww, hr, ht2, hw2⟩ :=
    run_ok_characterization files t w r t2 w2 henabled hrun
  refine ⟨fps, hfps, ?_, computeFingerprints_keys files fps hfps, ?_, ?_⟩
  · rw [hw2]
    exact lookupKey_mapSet_self w.fs t.config.historyPath _
  · intro hnodup p rec bs hmem hbs
    exact computeFingerprints_lookup files fps p rec bs hfps hnodup hmem hbs
  · intro q hq
    rw [hw2]
    exact lookupKey_mapSet_ne w.fs t.config.historyPath q _ hq

set_option maxRecDepth 100000 in
/-- C4 witness: a concrete successful enabled run over the path `a`. -/
theorem history_equals_fresh_fingerprints_witness :
    (mkTracker "h" none).config.enabled = true ∧
    trackChanges [("a", recX)] (mkTracker "h" none) worldEmpty =
      { result := Except.ok RetStates.internalRef,
        tracker := (trackChanges [("a", recX)] (mkTracker "h" none) worldEmpty).tracker,
        world := (trackChanges [("a", recX)] (mkTracker "h" none) worldEmpty).world } ∧
    (∃ fps, computeFingerprints [("a", recX)] = Except.ok fps ∧
      lookupKey (mkTracker "h" none).config.historyPath
          (trackChanges [("a", recX)] (mkTracker "h" none) worldEmpty).world.fs =
        some (DiskContent.jsonVal (historyJson fps)) ∧
      fps.map Prod.fst = [("a", recX)].map Prod.fst ∧
      (([("a", recX)].map Prod.fst).Nodup →
        ∀ p rec bs, (p, rec) ∈ [("a", recX)] → rec.contents = some bs →
          lookupKey p fps = some (md5Hex bs)) ∧
      (∀ q, q ≠ (mkTracker "h" none).config.historyPath →
        lookupKey q (trackChanges [("a", recX)] (mkTracker "h" none) worldEmpty).world.fs =
          lookupKey q worldEmpty.fs)) :=
  ⟨rfl, rfl,
   history_equals_fresh_fingerprints [("a", recX)] (mkTracker "h" none) worldEmpty
     RetStates.internalRef
     (trackChanges [("a", recX)] (mkTracker "h" none) worldEmpty).tracker
     (trackChanges [("a", recX)] (mkTracker "h" none) worldEmpty).world rfl rfl⟩

/-! ## C5 -/

/-- C5: across two consecutive successful enabled runs, a path present
in the first run's input and absent from the second run's input is
absent from the state map returned by the second run, and
`getFileState` on it returns `none` after the second run. -/
theorem deleted_paths_pruned
    (files1 files2 : List (String × FileRecord)) (t0 : Tracker) (w0 : World)
    (r1 : RetStates) (t1 : Tracker) (w1 : World)
    (r2 : RetStates) (t2 : Tracker) (w2 : World) (p : String)
    (hen0 : t0.config.enabled = true)
    (hrun1 : trackChanges files1 t0 w0 = { result := Except.ok r1, tracker := t1, world := w1 })
    (hen1 : t1.config.enabled = true)
    (hrun2 : trackChanges files2 t1 w1 = { result := Except.ok r2, tracker := t2, world := w2 })
    (hp1 : p ∈ files1.map Prod.fst)
    (hp2 : p ∉ files2.map Prod.fst) :
    lookupKey p (retStates r2 t2) = none ∧ getFileState p t2 = none := by
  obtain ⟨fps2, -, -, -, hr2, ht2, -⟩ :=
    run_ok_characterization files2 t1 w1 r2 t2 w2 hen1 hrun2
  subst hr2
  have hnone : lookupKey p
      (updateStates (parseDisk (lookupKey t1.config.historyPath w1.fs)) fps2 files2
        (pruneStates t1.fileStates files2)) = none := by
    rw [lookupKey_updateStates_of_not_mem _ _ _ _ _ hp2]
    exact lookupKey_pruneStates_of_not_mem _ _ _ hp2
  constructor
  · show lookupKey p t2.fileStates = none
    rw [ht2]
    exact hnone
  · show lookupKey p t2.fileStates = none
    rw [ht2]
    exact hnone

set_option maxRecDepth 1000000 in
/-- C5 witness: the path `a` is tracked in a first run and omitted from
the second; afterwards it is gone from both the returned map and
`getFileState`. -/
theorem deleted_paths_pruned_witness :
    (mkTracker "h" none).config.enabled = true ∧
    trackChanges [("a", recX)] (mkTracker "h" none) worldEmpty =
      { result := Except.ok RetStates.internalRef,
        tracker := (trackChanges [("a", recX)] (mkTracker "h" none) worldEmpty).tracker,
        world := (trackChanges [("a", recX)] (mkTracker "h" none) worldEmpty).world } ∧
    (trackChanges [("a", recX)] (mkTracker "h" none) worldEmpty).tracker.config.enabled = true ∧
    trackChanges [] (trackChanges [("a", recX)] (mkTracker "h" none) worldEmpty).tracker
        (trackChanges [("a", recX)] (mkTracker "h" none) worldEmpty).world =
      { result := Except.ok RetStates.internalRef,
        tracker := (trackChanges []
          (trackChanges [("a", recX)] (mkTracker "h" none) worldEmpty).tracker
          (trackChanges [("a", recX)] (mkTracker "h" none) worldEmpty).world).tracker,
        world := (trackChanges []
          (trackChanges [("a", recX)] (mkTracker "h" none) worldEmpty).tracker
          (trackChanges [("a", recX)] (mkTracker "h" none) worldEmpty).world).world } ∧
    "a" ∈ [("a", recX)].map Prod.fst ∧
    "a" ∉ ([] : List (String × FileRecord)).map Prod.fst ∧
    (lookupKey "a" (retStates RetStates.internalRef
        (trackChanges []
          (trackChanges [("a", recX)] (mkTracker "h" none) worldEmpty).tracker
          (trackChanges [("a", recX)] (mkTracker "h" none) worldEmpty).world).tracker) = none ∧
     getFileState "a" (trackChanges []
        (trackChanges [("a", recX)] (mkTracker "h" none) worldEmpty).tracker
        (trackChanges [("a", recX)] (mkTracker "h" none) worldEmpty).world).tracker = none) :=
  ⟨rfl, rfl, rfl, rfl, by decide, by decide,
   deleted_paths_pruned [("a", recX)] [] (mkTracker "h" none) worldEmpty
     RetStates.internalRef
     (trackChanges [("a", recX)] (mkTracker "h" none) worldEmpty).tracker
     (trackChanges [("a", recX)] (mkTracker "h" none) worldEmpty).world
     RetStates.internalRef
     (trackChanges []
       (trackChanges [("a", recX)] (mkTracker "h" none) worldEmpty).tracker
       (trackChanges [("a", recX)] (mkTracker "h" none) worldEmpty).world).tracker
     (trackChanges []
       (trackChanges [("a", recX)] (mkTracker "h" none) worldEmpty).tracker
       (trackChanges [("a", recX)] (mkTracker "h" none) worldEmpty).world).world
     "a" rfl rfl rfl rfl (by decide) (by decide)⟩

/-! ## C3 -/

/-- C3 (amended): in every successful enabled run, each input path's
returned state is determined by the loaded history value at that path
and the freshly computed fingerprint: a loaded value that is absent or
falsy (e.g. the empty string) gives status `new` with no previous
fingerprint; a truthy loaded value different from the fresh fingerprint
string gives `modified` carrying the loaded value; a loaded value equal
to the fresh fingerprint gives `unchanged` carrying it; and the stored
previous fingerprint is present iff the status is `modified` or
`unchanged`. -/
theorem reconcile_trichotomy
    (files : List (String × FileRecord)) (t : Tracker) (w : World)
    (r : RetStates) (t2 : Tracker) (w2 : World)
    (p : String) (rec : FileRecord) (bs : List Nat)
    (henabled : t.config.enabled = true)
    (hrun : trackChanges files t w = { result := Except.ok r, tracker := t2, world := w2 })
    (hnodup : (files.map Prod.fst).Nodup)
    (hmem : (p, rec) ∈ files) (hbs : rec.contents = some bs) :
    ∃ st, lookupKey p (retStates r t2) = some st ∧
      (jsTruthy (jsonIndex (parseDisk (lookupKey t.config.historyPath w.fs)) p) = false →
        st = { status := FileChangeStatus.new, previousFingerprint := none }) ∧
      (∀ v, jsonIndex (parseDisk (lookupKey t.config.historyPath w.fs)) p = some v →
        jsTruthy (some v) = true → v ≠ Json.jstr (md5Hex bs) →
        st = { status := FileChangeStatus.modified, previousFingerprint := some v }) ∧
      (jsonIndex (parseDisk (lookupKey t.config.historyPath w.fs)) p =
          some (Json.jstr (md5Hex bs)) →
        st = { status := FileChangeStatus.unchanged,
               previousFingerprint := some (Json.jstr (md5Hex bs)) }) ∧
      (st.previousFingerprint.isSome = true ↔
        (st.status = FileChangeStatus.modified ∨ st.status = FileChangeStatus.unchanged)) := by
  obtain ⟨fps, hpath, hfps, hww, hr, ht2, hw2⟩ :=
    run_ok_characterization files t w r t2 w2 henabled hrun
  subst hr
  have hpmem : p ∈ files.map Prod.fst := List.mem_map.mpr ⟨(p, rec), hmem, rfl⟩
  have hcur : lookupKey p fps = some (md5Hex bs) :=
    computeFingerprints_lookup files fps p rec bs hfps hnodup hmem hbs
  have hlk : lookupKey p (retStates RetStates.internalRef t2) =
      some (stateFor (parseDisk (lookupKey t.config.historyPath w.fs)) fps p) := by
    show lookupKey p t2.fileStates = _
    rw [ht2]
    exact lookupKey_updateStates_of_mem _ fps files _ p hpmem
  refine ⟨stateFor (parseDisk (lookupKey t.config.historyPath w.fs)) fps p, hlk,
    ?_, ?_, ?_, stateFor_invariant _ fps p⟩
  · intro hfalsy
    unfold stateFor
    simp [hfalsy]
  · intro v hv htruthy hne
    have hsne : jsStrictNe (some v) (lookupKey p fps) = true := by
      rw [hcur]
      cases v with
      | jstr s =>
        simp only [jsStrictNe, bne_iff_ne, ne_eq]
        exact fun he => hne (by rw [he])
      | jnum n => rfl
      | jobj l => rfl
    unfold stateFor
    simp [hv, htruthy, hsne]
  · intro hv
    have htruthy : jsTruthy (some (Json.jstr (md5Hex bs))) = true := by
      simp only [jsTruthy, bne_iff_ne, ne_eq]
      exact md5Hex_ne_empty bs
    have hsne : jsStrictNe (some (Json.jstr (md5Hex bs))) (lookupKey p fps) = false := by
      rw [hcur]
      simp [jsStrictNe]
    unfold stateFor
    simp [hv, htruthy, hsne]

/-- The history on disk holding the fingerprint of `x` for path `a`. -/
def wSeen : World :=
  { fs := [("h", DiskContent.jsonVal (Json.jobj [("a", Json.jstr (md5Hex [120]))]))],
    writeFails := none, rmFails := none, ops := [] }

set_option maxRecDepth 1000000 in
/-- C3 witness: a concrete run in which `a` was seen before with the
same content. -/
theorem reconcile_trichotomy_witness :
    (mkTracker "h" none).config.enabled = true ∧
    trackChanges [("a", recX)] (mkTracker "h" none) wSeen =
      { result := Except.ok RetStates.internalRef,
        tracker := (trackChanges [("a", recX)] (mkTracker "h" none) wSeen).tracker,
        world := (trackChanges [("a", recX)] (mkTracker "h" none) wSeen).world } ∧
    ([("a", recX)].map Prod.fst).Nodup ∧
    ("a", recX) ∈ [("a", recX)] ∧
    recX.contents = some [120] ∧
    (∃ st, lookupKey "a" (retStates RetStates.internalRef
        (trackChanges [("a", recX)] (mkTracker "h" none) wSeen).tracker) = some st ∧
      (jsTruthy (jsonIndex (parseDisk (lookupKey (mkTracker "h" none).config.historyPath
          wSeen.fs)) "a") = false →
        st = { status := FileChangeStatus.new, previousFingerprint := none }) ∧
      (∀ v, jsonIndex (parseDisk (lookupKey (mkTracker "h" none).config.historyPath
          wSeen.fs)) "a" = some v →
        jsTruthy (some v) = true → v ≠ Json.jstr (md5Hex [120]) →
        st = { status := FileChangeStatus.modified, previousFingerprint := some v }) ∧
      (jsonIndex (parseDisk (lookupKey (mkTracker "h" none).config.historyPath
          wSeen.fs)) "a" = some (Json.jstr (md5Hex [120])) →
        st = { status := FileChangeStatus.unchanged,
               previousFingerprint := some (Json.jstr (md5Hex [120])) }) ∧
      (st.previousFingerprint.isSome = true ↔
        (st.status = FileChangeStatus.modified ∨ st.status = FileChangeStatus.unchanged))) :=
  ⟨rfl, rfl, by decide, List.mem_singleton.mpr rfl, rfl,
   reconcile_trichotomy [("a", recX)] (mkTracker "h" none) wSeen
     RetStates.internalRef
     (trackChanges [("a", recX)] (mkTracker "h" none) wSeen).tracker
     (trackChanges [("a", recX)] (mkTracker "h" none) wSeen).world
     "a" recX [120] rfl rfl (by decide) (List.mem_singleton.mpr rfl) rfl⟩

/-- The history on disk holding the empty string for path `a`. -/
def wEmptyFp : World :=
  { fs := [("h", DiskContent.jsonVal (Json.jobj [("a", Json.jstr "")]))],
    writeFails := none, rmFails := none, ops := [] }

set_option maxRecDepth 1000000 in
/-- C3 counterexample: the loaded history maps `a` to the empty-string
fingerprint — present and different from the fresh fingerprint of the
content `x` — yet the run reports `a` as `new` with no previous
fingerprint, not `modified` carrying the old value: the code treats a
falsy loaded fingerprint as absent. -/
theorem c3_counterexample :
    jsonIndex (parseDisk (lookupKey "h" wEmptyFp.fs)) "a" = some (Json.jstr "") ∧
    Json.jstr "" ≠ Json.jstr (md5Hex [120]) ∧
    (trackChanges [("a", recX)] (mkTracker "h" none) wEmptyFp).result =
      Except.ok RetStates.internalRef ∧
    lookupKey "a"
        (trackChanges [("a", recX)] (mkTracker "h" none) wEmptyFp).tracker.fileStates =
      some { status := FileChangeStatus.new, previousFingerprint := none } ∧
    ({ status := FileChangeStatus.new, previousFingerprint := none } : FileChangeState) ≠
      { status := FileChangeStatus.modified, previousFingerprint := some (Json.jstr "") } :=
  ⟨rfl, fun h => md5Hex_ne_empty [120] (Json.jstr.inj h).symm, rfl, rfl, by simp⟩

/-! ## C6 -/

/-- C6 (amended): with a configured history path, a history file that is
absent or whose bytes fail to parse yields the empty history mapping,
and the run proceeds, reporting every input file as `new`; `loadHistory`
itself never surfaces any failure other than `HistoryPathNotSet`.
(Content that parses as JSON of the wrong shape is, however, returned
as-is and flows into reconciliation — see the counterexample.) -/
theorem load_failure_fresh_start
    (files : List (String × FileRecord)) (fps : List (String × String))
    (t : Tracker) (w : World)
    (henabled : t.config.enabled = true)
    (hpath : t.config.historyPath ≠ "")
    (hmiss : lookupKey t.config.historyPath w.fs = none ∨
             lookupKey t.config.historyPath w.fs = some DiskContent.invalid)
    (hfps : computeFingerprints files = Except.ok fps)
    (hww : w.writeFails = none) :
    (loadHistory t w).1 = Except.ok (Json.jobj []) ∧
    (trackChanges files t w).result = Except.ok RetStates.internalRef ∧
    (∀ p, p ∈ files.map Prod.fst →
      lookupKey p (trackChanges files t w).tracker.fileStates =
        some { status := FileChangeStatus.new, previousFingerprint := none }) ∧
    (∀ (u : Tracker) (v : World) (e : TrackerError),
      (loadHistory u v).1 = Except.error e → e = TrackerError.historyPathNotSet) := by
  have hparse : parseDisk (lookupKey t.config.historyPath w.fs) = Json.jobj [] := by
    rcases hmiss with h | h <;> rw [h] <;> rfl
  have htrack : trackChanges files t w =
      { result := Except.ok RetStates.internalRef,
        tracker := { t with fileStates :=
          (updateStates (Json.jobj []) fps files (pruneStates t.fileStates files)) },
        world := { w with
          fs := (mapSet w.fs t.config.historyPath (DiskContent.jsonVal (historyJson fps))),
          ops := (w.ops ++ [FsOp.read t.config.historyPath]) ++
            [FsOp.write t.config.historyPath] } } := by
    simp [trackChanges, henabled, loadHistory, hpath, hparse, hfps, saveHistory, hww]
  refine ⟨?_, by rw [htrack], ?_, ?_⟩
  · simp [loadHistory, hpath, hparse]
  · intro p hp
    rw [htrack]
    show lookupKey p (updateStates (Json.jobj []) fps files (pruneStates t.fileStates files)) = _
    rw [lookupKey_updateStates_of_mem (Json.jobj []) fps files _ p hp]
    rfl
  · intro u v e he
    by_cases hu : u.config.historyPath = ""
    · simp only [loadHistory, hu, if_pos] at he
      exact (Except.error.inj he).symm
    · simp [loadHistory, hu] at he

set_option maxRecDepth 1000000 in
/-- C6 witness: an enabled run against an empty filesystem — no history
file exists — loads the empty mapping and reports `a` as `new`. -/
theorem load_failure_fresh_start_witness :
    (mkTracker "h" none).config.enabled = true ∧
    (mkTracker "h" none).config.historyPath ≠ "" ∧
    (lookupKey (mkTracker "h" none).config.historyPath worldEmpty.fs = none ∨
     lookupKey (mkTracker "h" none).config.historyPath worldEmpty.fs =
       some DiskContent.invalid) ∧
    computeFingerprints [("a", recX)] = Except.ok [("a", md5Hex [120])] ∧
    worldEmpty.writeFails = none ∧
    ((loadHistory (mkTracker "h" none) worldEmpty).1 = Except.ok (Json.jobj []) ∧
     (trackChanges [("a", recX)] (mkTracker "h" none) worldEmpty).result =
       Except.ok RetStates.internalRef ∧
     (∀ p, p ∈ [("a", recX)].map Prod.fst →
       lookupKey p (trackChanges [("a", recX)] (mkTracker "h" none) worldEmpty).tracker.fileStates =
         some { status := FileChangeStatus.new, previousFingerprint := none }) ∧
     (∀ (u : Tracker) (v : World) (e : TrackerError),
       (loadHistory u v).1 = Except.error e → e = TrackerError.historyPathNotSet)) :=
  ⟨rfl, by decide, Or.inl rfl, rfl, rfl,
   load_failure_fresh_start [("a", recX)] [("a", md5Hex [120])] (mkTracker "h" none)
     worldEmpty rfl (by decide) (Or.inl rfl) rfl rfl⟩

/-- A history file whose bytes parse as JSON, but not as a
path-to-fingerprint mapping: the value at `a` is the number 5. -/
def wNum : World :=
  { fs := [("h", DiskContent.jsonVal (Json.jobj [("a", Json.jnum 5)]))],
    writeFails := none, rmFails := none, ops := [] }

set_option maxRecDepth 1000000 in
/-- C6 counterexample: a history file holding `{"a": 5}` is parseable
JSON but not the expected path-to-fingerprint mapping; `loadHistory`
returns it as-is rather than the empty mapping, and the run reports `a`
as `modified` (carrying the number as previous fingerprint), not `new`
— so malformed-but-parseable content does not degrade to a fresh
start. -/
theorem c6_counterexample :
    (loadHistory (mkTracker "h" none) wNum).1 =
      Except.ok (Json.jobj [("a", Json.jnum 5)]) ∧
    Json.jobj [("a", Json.jnum 5)] ≠ Json.jobj [] ∧
    (trackChanges [("a", recX)] (mkTracker "h" none) wNum).result =
      Except.ok RetStates.internalRef ∧
    lookupKey "a" (trackChanges [("a", recX)] (mkTracker "h" none) wNum).tracker.fileStates =
      some { status := FileChangeStatus.modified, previousFingerprint := some (Json.jnum 5) } ∧
    FileChangeStatus.modified ≠ FileChangeStatus.new :=
  ⟨rfl, by simp, rfl, rfl, by decide⟩
